import Mathlib

/-!
Verification of the safebox library (src/lib.rs): a shallow embedding of
the memzero routine and the SafeBox container, with theorems checking the
natural-language specification against the code.

Memory regions are modelled as lists of bytes (List Nat); a SafeBox owns
one heap allocation, modelled as the list of its elements.
-/

namespace Safebox

/-- One volatile byte store: models `raw.add(i).write_volatile(v)` in
memzero (src/lib.rs line 76). Writes value `v` at offset `i` of the region. -/
def writeVolatile (mem : List Nat) (i : Nat) (v : Nat) : List Nat :=
  mem.set i v

/-- `memzero` from src/lib.rs lines 67-80: `len = size_of_val(p)`, then
`for i in 0..len { raw.add(i).write_volatile(0) }`. The trailing
`atomic::fence(SeqCst)` has no effect on the byte contents and is not
modelled. -/
def memzero (mem : List Nat) : List Nat :=
  (List.range mem.length).foldl (fun m i => writeVolatile m i 0) mem

/-- Generic effect of a loop `for i in 0..k` writing `v i` at offset `i`:
the first `k` entries become `v 0, ..., v (k-1)` and the rest is untouched. -/
theorem foldl_set_range {β : Type} (v : Nat → β) (mem : List β) (k : Nat)
    (hk : k ≤ mem.length) :
    (List.range k).foldl (fun m i => m.set i (v i)) mem
      = (List.range k).map v ++ mem.drop k := by
  induction k with
  | zero => simp
  | succ n ih =>
    have hn : n ≤ mem.length := Nat.le_of_succ_le hk
    have hlt : n < mem.length := hk
    rw [List.range_succ, List.foldl_append, ih hn]
    have hlen : ((List.range n).map v).length = n := by simp
    rw [List.foldl_cons, List.foldl_nil]
    rw [List.drop_eq_getElem_cons hlt]
    rw [List.set_append_right _ _ (by rw [hlen])]
    simp only [hlen, List.range_succ, List.map_append, List.map_cons, List.map_nil,
      List.append_assoc, List.singleton_append, Nat.sub_self, List.set_cons_zero]

/-- After memzero, the region consists entirely of zero bytes and keeps
its length. -/
theorem memzero_eq_replicate (mem : List Nat) :
    memzero mem = List.replicate mem.length 0 := by
  unfold memzero writeVolatile
  rw [foldl_set_range (fun _ => 0) mem mem.length le_rfl]
  simp

/-- The SafeBox container (src/lib.rs line 101): a wrapper around one heap
allocation, `Box T` or `Box [T]`. The allocation is modelled as the list of
its elements; a single-value box is a one-element allocation. -/
structure SafeBox (α : Type) where
  content : List α

/-- Lifecycle of a container: a SafeBox value in Rust is live; after drop it
is destroyed. -/
inductive LifeState where
  | live
  | destroyed
deriving DecidableEq

/-- Observable outcome of running the Drop impl (src/lib.rs lines 103-111):
how many times memzero ran, the final bytes of the allocation just before it
is released, and the lifecycle state reached. -/
structure DropTrace where
  memzeroCalls : Nat
  finalMem : List Nat
  finalState : LifeState

namespace SafeBox

/-- `SafeBox::new` (src/lib.rs lines 119-121): `Self(Box::new(v))`, one heap
allocation holding exactly the value v. -/
def new (v : α) : SafeBox α :=
  ⟨[v]⟩

/-- `SafeBox::new_slice` (src/lib.rs lines 137-139):
`Self(vec![v; len].into_boxed_slice())`. -/
def new_slice (v : α) (len : Nat) : SafeBox α :=
  ⟨List.replicate len v⟩

/-- `SafeBox::get_ref` (src/lib.rs lines 168-170): a read-only view of the
content behind the smart pointer. -/
def get_ref (b : SafeBox α) : List α :=
  b.content

/-- The Drop impl (src/lib.rs lines 103-110): its body is a single call
`memzero(&mut self.0 as &mut T)` over the whole pointee (size_of_val covers
the full allocation, also for a boxed slice), after which the allocation is
released. The content has no destructor of its own to run. -/
def dropBox (b : SafeBox Nat) : DropTrace :=
  ⟨1, memzero b.content, .destroyed⟩

/-- Writing a byte pattern in place through `get_mut` (src/lib.rs lines
177-179): the caller holds the mutable reference and stores `p.getD i 0` at
each offset `i` of the content, in order. -/
def write_pattern (b : SafeBox Nat) (p : List Nat) : SafeBox Nat :=
  ⟨(List.range p.length).foldl (fun m i => m.set i (p.getD i 0)) b.content⟩

end SafeBox

/-- `std::iter::repeat_with(f).take(len).collect()` from `new_slice_with`
(src/lib.rs lines 152-159), with the generator modelled as a function on an
explicit state (so side effects such as a random source are visible).
Returns the collected elements, the final generator state, and the number of
calls made to the generator. -/
def repeatWithTake (f : σ → α × σ) : Nat → σ → List α × σ × Nat
  | 0, s => ([], s, 0)
  | n + 1, s =>
    let p := f s
    let r := repeatWithTake f n p.2
    (p.1 :: r.1, r.2.1, r.2.2 + 1)

/-- Generator state after the first `i` calls. -/
def stateAfter (f : σ → α × σ) (s : σ) : Nat → σ
  | 0 => s
  | i + 1 => stateAfter f (f s).2 i

/-- Result of the i-th call of the generator (0-based), counting from start
state s. -/
def callResult (f : σ → α × σ) (s : σ) (i : Nat) : α :=
  (f (stateAfter f s i)).1

/-- Result of `SafeBox::new_slice_with`: the built container, the final
generator state, and the number of generator calls. -/
structure GenResult (α σ : Type) where
  box : SafeBox α
  final : σ
  calls : Nat

/-- `SafeBox::new_slice_with` (src/lib.rs lines 152-159):
`Self(repeat_with(f).take(len).collect::<Vec<T>>().into_boxed_slice())`. -/
def new_slice_with (len : Nat) (f : σ → α × σ) (s : σ) : GenResult α σ :=
  let r := repeatWithTake f len s
  ⟨⟨r.1⟩, r.2.1, r.2.2⟩

/-- `ptr::copy_from_nonoverlapping(dest, src, count)` as used by both Clone
impls (src/lib.rs lines 189 and 206): copies `count` elements from the
source into the destination, element by element. The destination starts as
MaybeUninit storage, modelled as a list of options. -/
def copy_from_nonoverlapping (dest : List (Option α)) (src : List α)
    (count : Nat) : List (Option α) :=
  (List.range count).foldl (fun d i => d.set i src[i]?) dest

/-- `Clone for SafeBox<[T]>` (src/lib.rs lines 196-209): allocate `len`
MaybeUninit slots with new_slice, copy_from_nonoverlapping the `len` source
elements into them, then transmute the fully initialized storage. -/
def cloneSlice (src : List α) : List α :=
  let len := src.length
  let uninit : List (Option α) := List.replicate len none
  (copy_from_nonoverlapping uninit src len).reduceOption

/-- `Clone for SafeBox<T>` (src/lib.rs lines 182-193): allocate one
MaybeUninit slot with new, copy one element from the source via the ptr
dance, then transmute. Returns the content list of the new box. -/
def cloneVal (src : α) : List α :=
  (copy_from_nonoverlapping (List.replicate 1 none) [src] 1).reduceOption

/-- A heap of live containers, indexed by identity: the world in which clone
allocates a fresh box and get_mut mutates one box in place. -/
abbrev World (α : Type) : Type :=
  List (List α)

/-- Clone box `i`: a fresh allocation (a new identity, distinct from every
live one) is filled by cloneSlice from box i. Returns the new world and the
identity of the new box. -/
def worldClone (w : World α) (i : Nat) : World α × Nat :=
  (w ++ [cloneSlice (w.getD i [])], w.length)

/-- One in-place mutation of box `i` through its get_mut reference: the
caller turns the current content into `g` of it, within the same
allocation. -/
def worldWrite (w : World α) (i : Nat) (g : List α → List α) : World α :=
  w.set i (g (w.getD i []))

/-- A sequence of mutations applied through the mutable accessor of
box `i`. -/
def applyMuts (w : World α) (i : Nat) (gs : List (List α → List α)) :
    World α :=
  gs.foldl (fun w g => worldWrite w i g) w

/-- Trait bounds a Rust impl block can place on the content type T. -/
inductive TraitBound where
  | copyBound
  | defaultBound
deriving DecidableEq

/-- Bounds on T for `SafeBox::new` (src/lib.rs line 113: impl of T with
Copy). -/
def new_bounds : List TraitBound :=
  [.copyBound]

/-- Bounds on T for the Default impl (src/lib.rs line 124: impl of T with
Default and Copy). -/
def default_bounds : List TraitBound :=
  [.defaultBound, .copyBound]

/-- Bounds on T for `SafeBox::new_slice` (src/lib.rs line 133: impl of T
with Copy). -/
def new_slice_bounds : List TraitBound :=
  [.copyBound]

/-- Bounds on T for `SafeBox::new_slice_with` (src/lib.rs line 142: the impl
block is over plain T, with no bound at all). -/
def new_slice_with_bounds : List TraitBound :=
  []

/-- Whether the platform allocator can obtain backing storage for a
construction call. -/
inductive AllocOutcome where
  | success
  | exhausted
deriving DecidableEq

/-- How an API operation can end: normal return, fatal termination of the
calling context, or a recoverable error value handed back to the caller. -/
inductive OpOutcome where
  | ok
  | fatal
  | recoverableError
deriving DecidableEq

/-- Result of a construction call: a live container, or a fatal abort that
yields no container at all. There is no variant carrying a half-built
container or a recoverable error. -/
inductive ConstructResult (β : Type) where
  | live (b : β)
  | fatalAbort

/-- Modelled from the spec and std semantics: the constructors call
`Box::new` or `vec!` (src/lib.rs lines 120, 138, 156), whose allocation
failure aborts the calling context; their signatures return Self, never a
Result or Option. -/
def construct_outcome (a : AllocOutcome) : OpOutcome :=
  match a with
  | .success => .ok
  | .exhausted => .fatal

/-- `SafeBox::new` together with its allocation: on success the live box, on
exhaustion a fatal abort with no container. -/
def new_checked (v : α) (a : AllocOutcome) : ConstructResult (SafeBox α) :=
  match a with
  | .success => .live (SafeBox.new v)
  | .exhausted => .fatalAbort

/-- `get_ref` (src/lib.rs lines 168-170) returns a plain reference: no error
path exists in its signature. -/
def get_ref_outcome : OpOutcome :=
  .ok

/-- `get_mut` (src/lib.rs lines 177-179) returns a plain reference: no error
path exists in its signature. -/
def get_mut_outcome : OpOutcome :=
  .ok

/-- The Drop impl (src/lib.rs lines 103-111) returns unit and calls only
memzero, which cannot fail: destruction and zeroing never fail
observably. -/
def drop_outcome : OpOutcome :=
  .ok

section Helpers

variable {α β σ : Type}

/-- Reading each index of a list back out of a range map reproduces the
list. -/
theorem map_getD_range (p : List β) (d : β) :
    (List.range p.length).map (fun i => p.getD i d) = p := by
  apply List.ext_getElem
  · simp
  · intro i h1 h2
    simp [List.getElem?_eq_getElem h2]

/-- The optional reads of a list over its index range are its elements,
each wrapped in some. -/
theorem map_getElemOpt_range (p : List β) :
    (List.range p.length).map (fun i => p[i]?) = p.map some := by
  apply List.ext_getElem
  · simp
  · intro i h1 h2
    have hi : i < p.length := by simpa using h2
    simp [List.getElem?_eq_getElem hi]

/-- Unwrapping a list of unconditionally present options gives back the
values. -/
theorem reduceOption_map_some (p : List β) : (p.map some).reduceOption = p := by
  induction p with
  | nil => rfl
  | cons a t ih => simp [List.reduceOption_cons_of_some, ih]

/-- Copying a whole source into freshly allocated MaybeUninit storage of the
same length initializes every slot with the corresponding source element. -/
theorem copy_from_nonoverlapping_full (src : List α) :
    copy_from_nonoverlapping (List.replicate src.length none) src src.length
      = src.map some := by
  unfold copy_from_nonoverlapping
  rw [foldl_set_range (fun i => src[i]?) _ _ (by simp)]
  simp [map_getElemOpt_range]

/-- The slice clone reproduces the source content exactly. -/
theorem cloneSlice_eq (src : List α) : cloneSlice src = src := by
  show (copy_from_nonoverlapping (List.replicate src.length none) src
    src.length).reduceOption = src
  rw [copy_from_nonoverlapping_full, reduceOption_map_some]

/-- The single-value clone reproduces the source value exactly. -/
theorem cloneVal_eq (src : α) : cloneVal src = [src] := by
  show (copy_from_nonoverlapping (List.replicate 1 none) [src]
    1).reduceOption = [src]
  have h : copy_from_nonoverlapping (List.replicate 1 none) [src] 1
      = [some src] := by
    simpa using copy_from_nonoverlapping_full [src]
  rw [h]
  simp [List.reduceOption_cons_of_some]

/-- Setting one index leaves reads at any other index unchanged. -/
theorem getD_set_ne {w : List β} {i j : Nat} (h : i ≠ j) (x d : β) :
    (w.set i x).getD j d = w.getD j d := by
  simp [List.getElem?_set_ne h]

/-- Reads below the length of the left part of an append stay in the left
part. -/
theorem getD_append_lt (w v : List β) (i : Nat) (h : i < w.length) (d : β) :
    (w ++ v).getD i d = w.getD i d := by
  simp [List.getElem?_append_left h]

/-- Reading the freshly appended element. -/
theorem getD_append_self (w : List β) (x d : β) :
    (w ++ [x]).getD w.length d = x := by
  simp [List.getElem?_append_right (le_refl w.length)]

/-- Frame property of mutation sequences: every box other than the mutated
one keeps its content. -/
theorem applyMuts_getD_ne (w : World α) (i j : Nat) (h : i ≠ j)
    (gs : List (List α → List α)) (d : List α) :
    (applyMuts w i gs).getD j d = w.getD j d := by
  induction gs generalizing w with
  | nil => rfl
  | cons g gs ih =>
    show (applyMuts (worldWrite w i g) i gs).getD j d = w.getD j d
    rw [ih, worldWrite, getD_set_ne h]

/-- The collected list of a repeat-with-take has exactly the requested
length. -/
theorem repeatWithTake_length (f : σ → α × σ) (n : Nat) (s : σ) :
    (repeatWithTake f n s).1.length = n := by
  induction n generalizing s with
  | zero => rfl
  | succ n ih => simp [repeatWithTake, ih]

/-- Repeat-with-take calls the generator exactly as many times as elements
are requested. -/
theorem repeatWithTake_calls (f : σ → α × σ) (n : Nat) (s : σ) :
    (repeatWithTake f n s).2.2 = n := by
  induction n generalizing s with
  | zero => rfl
  | succ n ih => simp [repeatWithTake, ih]

/-- Element i of the collected list is the result of the i-th generator
call. -/
theorem repeatWithTake_getD (f : σ → α × σ) (n : Nat) (s : σ) (i : Nat)
    (h : i < n) (d : α) :
    (repeatWithTake f n s).1.getD i d = callResult f s i := by
  induction n generalizing s i with
  | zero => exact absurd h (Nat.not_lt_zero i)
  | succ n ih =>
    cases i with
    | zero => simp [repeatWithTake, callResult, stateAfter]
    | succ i =>
      show ((f s).1 :: (repeatWithTake f n (f s).2).1).getD (i + 1) d = _
      rw [List.getD_cons_succ]
      exact ih (f s).2 i (Nat.lt_of_succ_lt_succ h)

end Helpers

section ClaimTheorems

variable {α σ : Type}

/-- C1: every path that ends a SafeBox lifetime (explicit drop, scope exit,
unwinding) runs the Drop impl, whose body invokes memzero over the full
allocation exactly once; once destruction completes, every byte of the
allocation is zero and the container is destroyed. -/
theorem drop_zeroizes (b : SafeBox Nat) :
    (SafeBox.dropBox b).memzeroCalls = 1
      ∧ (SafeBox.dropBox b).finalState = .destroyed
      ∧ (SafeBox.dropBox b).finalMem.length = b.content.length
      ∧ ∀ i, i < b.content.length →
          (SafeBox.dropBox b).finalMem.getD i 1 = 0 := by
  refine ⟨rfl, rfl, ?_, ?_⟩
  · simp [SafeBox.dropBox, memzero_eq_replicate]
  · intro i hi
    simp [SafeBox.dropBox, memzero_eq_replicate, List.getElem?_replicate, hi]

/-- Witness for C1 at a concrete three-byte box. -/
theorem drop_zeroizes_witness :
    (SafeBox.dropBox ⟨[7, 7, 7]⟩).finalMem.getD 2 1 = 0 :=
  (drop_zeroizes ⟨[7, 7, 7]⟩).2.2.2 2 (by decide)

/-- C2: after memzero over a region of length L, all L bytes of the region
are zero and the length is preserved; L = 0 is valid and the call leaves the
empty region unchanged. -/
theorem memzero_spec (mem : List Nat) :
    (memzero mem).length = mem.length
      ∧ (∀ i, i < mem.length → (memzero mem).getD i 1 = 0)
      ∧ memzero [] = [] := by
  refine ⟨?_, ?_, rfl⟩
  · simp [memzero_eq_replicate]
  · intro i hi
    simp [memzero_eq_replicate, List.getElem?_replicate, hi]

/-- Witness for C2 at a concrete two-byte region. -/
theorem memzero_spec_witness : (memzero [5, 7]).getD 1 1 = 0 :=
  (memzero_spec [5, 7]).2.1 1 (by decide)

/-- C3: the claim that every construction entry point bounds T by the Copy
capability fails on the code: new, the Default impl and new_slice do carry
the Copy bound, but new_slice_with sits in an impl block over plain T
(src/lib.rs line 142) with no bound at all, so the container can be
instantiated there with a type that owns resources, contradicting the crate
documentation (lines 86-87) and the Drop comment (line 108). -/
theorem new_slice_with_lacks_copy_bound :
    TraitBound.copyBound ∈ new_bounds
      ∧ TraitBound.copyBound ∈ default_bounds
      ∧ TraitBound.copyBound ∈ new_slice_bounds
      ∧ TraitBound.copyBound ∉ new_slice_with_bounds := by
  decide

/-- C4: new_slice_with calls the generator exactly n times, in ascending
index order (the state threads through the calls in order), element i equals
the result of the i-th call, and for n = 0 the generator is never called. -/
theorem new_slice_with_spec (f : σ → α × σ) (n : Nat) (s : σ) :
    (new_slice_with n f s).calls = n
      ∧ (new_slice_with n f s).box.content.length = n
      ∧ (∀ i d, i < n →
          (new_slice_with n f s).box.content.getD i d = callResult f s i)
      ∧ (new_slice_with 0 f s).calls = 0 := by
  refine ⟨repeatWithTake_calls f n s, repeatWithTake_length f n s, ?_,
    repeatWithTake_calls f 0 s⟩
  intro i d h
  exact repeatWithTake_getD f n s i h d

/-- Witness for C4: a counting generator yielding 0,1,2 puts 2 at index 2
after exactly three calls. -/
theorem new_slice_with_spec_witness :
    (new_slice_with 3 (fun s : Nat => (s, s + 1)) 0).box.content.getD 2 9
        = callResult (fun s : Nat => (s, s + 1)) 0 2
      ∧ callResult (fun s : Nat => (s, s + 1)) 0 2 = 2 :=
  ⟨(new_slice_with_spec (fun s : Nat => (s, s + 1)) 3 0).2.2.1 2 9 (by decide),
    rfl⟩

/-- C5: duplicating box i allocates a fresh box of identical shape (same
element count) whose content equals the source at the moment of the call;
the source content is unchanged and the two identities differ; the
single-value clone likewise reproduces its one element. -/
theorem clone_spec (w : World α) (i : Nat) (hi : i < w.length) (v : α) :
    ((worldClone w i).1.getD (worldClone w i).2 []).length
        = (w.getD i []).length
      ∧ (worldClone w i).1.getD (worldClone w i).2 [] = w.getD i []
      ∧ (worldClone w i).1.getD i [] = w.getD i []
      ∧ (worldClone w i).2 ≠ i
      ∧ cloneVal v = [v] := by
  have h1 : (worldClone w i).1.getD (worldClone w i).2 []
      = cloneSlice (w.getD i []) := getD_append_self w _ []
  refine ⟨?_, ?_, ?_, ?_, cloneVal_eq v⟩
  · rw [h1, cloneSlice_eq]
  · rw [h1, cloneSlice_eq]
  · exact getD_append_lt w _ i hi []
  · exact (Nat.ne_of_lt hi).symm

/-- Witness for C5 at a concrete two-box world. -/
theorem clone_spec_witness :
    (worldClone [[1, 2], [3]] 0).1.getD (worldClone [[1, 2], [3]] 0).2 []
      = [[1, 2], [3]].getD 0 [] :=
  (clone_spec [[1, 2], [3]] 0 (by decide) 5).2.1

/-- C6: after duplication the two containers are fully independent: any
sequence of mutations through the mutable accessor of one of them leaves the
content of the other unchanged. -/
theorem clone_independent (w : World α) (i : Nat) (hi : i < w.length)
    (gs hs : List (List α → List α)) :
    (applyMuts (worldClone w i).1 (worldClone w i).2 gs).getD i []
        = (worldClone w i).1.getD i []
      ∧ (applyMuts (worldClone w i).1 i hs).getD (worldClone w i).2 []
        = (worldClone w i).1.getD (worldClone w i).2 [] := by
  constructor
  · exact applyMuts_getD_ne _ _ _ (Nat.ne_of_lt hi).symm gs []
  · exact applyMuts_getD_ne _ _ _ (Nat.ne_of_lt hi) hs []

/-- Witness for C6: mutating the fresh clone leaves the original box
untouched. -/
theorem clone_independent_witness :
    (applyMuts (worldClone [[1], [2]] 0).1 (worldClone [[1], [2]] 0).2
        [fun l => 9 :: l]).getD 0 []
      = (worldClone [[1], [2]] 0).1.getD 0 [] :=
  (clone_independent [[1], [2]] 0 (by decide) [fun l => 9 :: l] []).1

/-- C7: writing an arbitrary byte pattern of the content size through the
mutable accessor, then reading through the read accessor, returns exactly
that pattern. -/
theorem write_read_roundtrip (b : SafeBox Nat) (p : List Nat)
    (h : p.length = b.content.length) :
    SafeBox.get_ref (SafeBox.write_pattern b p) = p := by
  unfold SafeBox.get_ref SafeBox.write_pattern
  rw [foldl_set_range (fun i => p.getD i 0) b.content p.length (le_of_eq h)]
  rw [map_getD_range, h, List.drop_length, List.append_nil]

/-- Witness for C7 at a concrete three-byte pattern. -/
theorem write_read_roundtrip_witness :
    SafeBox.get_ref (SafeBox.write_pattern ⟨[0, 0, 0]⟩ [4, 5, 6])
      = [4, 5, 6] :=
  write_read_roundtrip ⟨[0, 0, 0]⟩ [4, 5, 6] (by decide)

/-- C8: new_slice yields a container of exactly n elements, each equal to v,
including the n = 0 case. -/
theorem new_slice_spec (v : α) (n : Nat) :
    (SafeBox.new_slice v n).content.length = n
      ∧ (∀ i d, i < n → (SafeBox.new_slice v n).content.getD i d = v)
      ∧ (SafeBox.new_slice v 0).content = [] := by
  refine ⟨by simp [SafeBox.new_slice], ?_, rfl⟩
  intro i d h
  simp [SafeBox.new_slice, List.getElem?_replicate, h]

/-- Witness for C8 at a concrete repeated slice. -/
theorem new_slice_spec_witness :
    (SafeBox.new_slice 7 3).content.getD 1 0 = 7 :=
  (new_slice_spec 7 3).2.1 1 0 (by decide)

/-- C9: new produces a container holding exactly one element, and reading a
freshly constructed container through the read accessor returns exactly the
initialization content, for single values and for slices of any size
including zero. -/
theorem new_get_ref_spec (v : α) (n : Nat) :
    (SafeBox.new v).content = [v]
      ∧ (SafeBox.new v).content.length = 1
      ∧ SafeBox.get_ref (SafeBox.new v) = [v]
      ∧ SafeBox.get_ref (SafeBox.new_slice v n) = List.replicate n v :=
  ⟨rfl, rfl, rfl, rfl⟩

/-- C10: allocation failure is fatal, arises only during construction and
yields no half-built container; no operation has a recoverable error path,
and destruction with its zeroing always completes. -/
theorem error_model (v : α) (a : AllocOutcome) (b : SafeBox Nat) :
    construct_outcome a ≠ .recoverableError
      ∧ (a = .exhausted → new_checked v a = ConstructResult.fatalAbort)
      ∧ (construct_outcome a = .fatal → a = .exhausted)
      ∧ get_ref_outcome = .ok
      ∧ get_mut_outcome = .ok
      ∧ drop_outcome = .ok
      ∧ (SafeBox.dropBox b).finalState = .destroyed := by
  refine ⟨?_, ?_, ?_, rfl, rfl, rfl, rfl⟩
  · cases a <;> simp [construct_outcome]
  · intro h
    subst h
    rfl
  · intro h
    cases a with
    | success => simp [construct_outcome] at h
    | exhausted => rfl

/-- Witness for C10: an exhausted allocation during new aborts fatally with
no container. -/
theorem error_model_witness :
    new_checked (42 : Nat) .exhausted = ConstructResult.fatalAbort :=
  (error_model 42 .exhausted ⟨[]⟩).2.1 rfl

end ClaimTheorems

end Safebox
